import Mathlib

/-!
Verification of the 28BYJ-48/ULN2003 stepper-motor driver (src/src/lib.rs)
against its natural-language specification.

The driver is embedded shallowly: the enum `State`, the three lookup
functions, and the `ULN2003` struct with its operations are translated
directly from the Rust source.  A hardware output pin (`embedded_hal`'s
`OutputPin`) is modelled as a `Pin`: a failure schedule `failAt`
(whether the n-th write attempt on this pin fails) together with the log
of all write attempts made so far.  The optional delay capability
(`Option<D>` with `D : DelayNs`) is modelled as an optional log of the
millisecond values passed to `delay_ms`.  Fallible Rust operations
returning `Result<(), StepError>` become functions returning the updated
motor paired with `Except StepError Unit`; the `?` operator's
short-circuiting is modelled by the explicit `match` on each
intermediate result.
-/

namespace ULN2003Driver

/-- `embedded_hal::digital::PinState`: the level written to an output line. -/
inductive PinState
  | Low
  | High
deriving DecidableEq, Repr

/-- The `State` enum of the driver: the 9 motor positions. -/
inductive State
  | State0
  | State1
  | State2
  | State3
  | State4
  | State5
  | State6
  | State7
  | State8
deriving DecidableEq, Repr

/-- The `Direction` enum: `Normal` or `Reverse`. -/
inductive Direction
  | Normal
  | Reverse
deriving DecidableEq, Repr

/-- The opaque `StepError` struct. -/
inductive StepError
  | mk
deriving DecidableEq, Repr

open PinState State Direction

/-- `get_pin_states`: the wire table, one `[PinState; 4]` row per state,
given as a quadruple (wire1, wire2, wire3, wire4). -/
def get_pin_states (s : State) : PinState × PinState × PinState × PinState :=
  match s with
  | State0 => (Low, Low, Low, Low)
  | State1 => (Low, Low, Low, High)
  | State2 => (Low, Low, High, High)
  | State3 => (Low, Low, High, Low)
  | State4 => (Low, High, High, Low)
  | State5 => (Low, High, Low, Low)
  | State6 => (High, High, Low, Low)
  | State7 => (High, Low, Low, Low)
  | State8 => (High, Low, Low, High)

/-- `get_next_state`: successor in the phase cycle. -/
def get_next_state (s : State) : State :=
  match s with
  | State0 => State1
  | State1 => State2
  | State2 => State3
  | State3 => State4
  | State4 => State5
  | State5 => State6
  | State6 => State7
  | State7 => State8
  | State8 => State1

/-- `get_prev_state`: predecessor in the phase cycle. -/
def get_prev_state (s : State) : State :=
  match s with
  | State0 => State8
  | State1 => State8
  | State2 => State1
  | State3 => State2
  | State4 => State3
  | State5 => State4
  | State6 => State5
  | State7 => State6
  | State8 => State7

/-- Model of one `OutputPin`: `failAt n` says whether the n-th write
attempt (0-indexed) on this pin fails; `attempts` is the log of all
levels whose write was attempted, in order. -/
structure Pin where
  failAt : Nat → Bool
  attempts : List PinState

/-- The free function `set_state(pin, state)`: attempts the write
(logging it) and maps a pin failure to `StepError`. -/
def set_state (pin : Pin) (state : PinState) : Pin × Except StepError Unit :=
  let pin' : Pin := ⟨pin.failAt, pin.attempts ++ [state]⟩
  if pin.failAt pin.attempts.length then (pin', .error .mk) else (pin', .ok ())

/-- The `ULN2003` struct: four pins, current state, direction, and the
optional delay capability (modelled as the log of `delay_ms` calls). -/
structure ULN2003 where
  in1 : Pin
  in2 : Pin
  in3 : Pin
  in4 : Pin
  state : State
  dir : Direction
  delay : Option (List Nat)

/-- `ULN2003::new`: initial state `State0`, direction `Normal`. -/
def ULN2003.new (in1 in2 in3 in4 : Pin) (delay : Option (List Nat)) : ULN2003 :=
  ⟨in1, in2, in3, in4, State0, Normal, delay⟩

/-- `apply_state`: writes the pattern of the current state to the four
pins in wire order 1..4; the `?` after each write short-circuits on the
first failure. -/
def apply_state (m : ULN2003) : ULN2003 × Except StepError Unit :=
  let states := get_pin_states m.state
  let r1 := set_state m.in1 states.1
  let m1 := { m with in1 := r1.1 }
  match r1.2 with
  | .error e => (m1, .error e)
  | .ok _ =>
    let r2 := set_state m1.in2 states.2.1
    let m2 := { m1 with in2 := r2.1 }
    match r2.2 with
    | .error e => (m2, .error e)
    | .ok _ =>
      let r3 := set_state m2.in3 states.2.2.1
      let m3 := { m2 with in3 := r3.1 }
      match r3.2 with
      | .error e => (m3, .error e)
      | .ok _ =>
        let r4 := set_state m3.in4 states.2.2.2
        let m4 := { m3 with in4 := r4.1 }
        match r4.2 with
        | .error e => (m4, .error e)
        | .ok _ => (m4, .ok ())

/-- `StepperMotor::step`: first update `state` along the current
direction, then apply it to the pins. -/
def step (m : ULN2003) : ULN2003 × Except StepError Unit :=
  let m' :=
    match m.dir with
    | .Normal => { m with state := get_next_state m.state }
    | .Reverse => { m with state := get_prev_state m.state }
  apply_state m'

/-- `DelayNs::delay_ms` on the owned capability: log the sleep. -/
def delay_ms (m : ULN2003) (ms : Nat) : ULN2003 :=
  { m with delay := m.delay.map (fun l => l ++ [ms]) }

/-- The `for _ in 0..steps` loop body of `step_for`, by remaining
iteration count: step, abort on failure, else sleep and continue. -/
def step_for_loop (ms : Nat) : ULN2003 → Nat → ULN2003 × Except StepError Unit
  | m, 0 => (m, .ok ())
  | m, n + 1 =>
    let r := step m
    match r.2 with
    | .error e => (r.1, .error e)
    | .ok _ => step_for_loop ms (delay_ms r.1 ms) n

/-- `StepperMotor::step_for(steps, ms)`: fails at once without a delay
capability; otherwise runs the loop.  `steps` is a Rust `i32`, and
`0..steps` iterates `steps.toNat` times. -/
def step_for (m : ULN2003) (steps : Int) (ms : Nat) : ULN2003 × Except StepError Unit :=
  if m.delay.isNone then (m, .error .mk)
  else step_for_loop ms m steps.toNat

/-- `StepperMotor::set_direction`. -/
def set_direction (m : ULN2003) (dir : Direction) : ULN2003 :=
  { m with dir := dir }

/-- `StepperMotor::stop`: reset to `State0` and apply it. -/
def stop (m : ULN2003) : ULN2003 × Except StepError Unit :=
  apply_state { m with state := State0 }

/-- `StepperMotor::power_off`: write `Low` to the four pins directly,
short-circuiting on the first failure; `state` and `dir` untouched. -/
def power_off (m : ULN2003) : ULN2003 × Except StepError Unit :=
  let r1 := set_state m.in1 Low
  let m1 := { m with in1 := r1.1 }
  match r1.2 with
  | .error e => (m1, .error e)
  | .ok _ =>
    let r2 := set_state m1.in2 Low
    let m2 := { m1 with in2 := r2.1 }
    match r2.2 with
    | .error e => (m2, .error e)
    | .ok _ =>
      let r3 := set_state m2.in3 Low
      let m3 := { m2 with in3 := r3.1 }
      match r3.2 with
      | .error e => (m3, .error e)
      | .ok _ =>
        let r4 := set_state m3.in4 Low
        let m4 := { m3 with in4 := r4.1 }
        match r4.2 with
        | .error e => (m4, .error e)
        | .ok _ => (m4, .ok ())

/-- The state transition `step` performs, as a function of the
direction: `next` if `Normal`, `prev` if `Reverse` (the `match self.dir`
at the top of `step`). -/
def dirTransition (d : Direction) (s : State) : State :=
  match d with
  | .Normal => get_next_state s
  | .Reverse => get_prev_state s

/-- A pin that never fails a write. -/
def Pin.allOk (p : Pin) : Prop :=
  ∀ n, p.failAt n = false

/-- All four pins of a motor never fail. -/
def pinsOk (m : ULN2003) : Prop :=
  m.in1.allOk ∧ m.in2.allOk ∧ m.in3.allOk ∧ m.in4.allOk

/-- `set_state` when the write succeeds. -/
theorem set_state_ok (p : Pin) (s : PinState) (h : p.failAt p.attempts.length = false) :
    set_state p s = (⟨p.failAt, p.attempts ++ [s]⟩, .ok ()) := by
  simp [set_state, h]

/-- `set_state` when the write fails. -/
theorem set_state_err (p : Pin) (s : PinState) (h : p.failAt p.attempts.length = true) :
    set_state p s = (⟨p.failAt, p.attempts ++ [s]⟩, .error .mk) := by
  simp [set_state, h]

/-- `apply_state` only touches the pins: `state`, `dir` and `delay` are
unchanged, and the pins keep their failure schedules, whatever the
outcome of the writes. -/
theorem apply_state_frame (m : ULN2003) :
    (apply_state m).1.state = m.state ∧ (apply_state m).1.dir = m.dir ∧
      (apply_state m).1.delay = m.delay ∧
      (apply_state m).1.in1.failAt = m.in1.failAt ∧
      (apply_state m).1.in2.failAt = m.in2.failAt ∧
      (apply_state m).1.in3.failAt = m.in3.failAt ∧
      (apply_state m).1.in4.failAt = m.in4.failAt := by
  unfold apply_state set_state
  cases hb1 : m.in1.failAt m.in1.attempts.length <;>
    cases hb2 : m.in2.failAt m.in2.attempts.length <;>
      cases hb3 : m.in3.failAt m.in3.attempts.length <;>
        cases hb4 : m.in4.failAt m.in4.attempts.length <;>
          simp [hb1, hb2, hb3, hb4]

/-- When all four writes succeed, `apply_state` appends the pattern row
of the current state to the four pins' logs and returns `ok`. -/
theorem apply_state_ok (m : ULN2003)
    (h1 : m.in1.failAt m.in1.attempts.length = false)
    (h2 : m.in2.failAt m.in2.attempts.length = false)
    (h3 : m.in3.failAt m.in3.attempts.length = false)
    (h4 : m.in4.failAt m.in4.attempts.length = false) :
    apply_state m =
      ({ m with
          in1 := ⟨m.in1.failAt, m.in1.attempts ++ [(get_pin_states m.state).1]⟩
          in2 := ⟨m.in2.failAt, m.in2.attempts ++ [(get_pin_states m.state).2.1]⟩
          in3 := ⟨m.in3.failAt, m.in3.attempts ++ [(get_pin_states m.state).2.2.1]⟩
          in4 := ⟨m.in4.failAt, m.in4.attempts ++ [(get_pin_states m.state).2.2.2]⟩ },
        .ok ()) := by
  unfold apply_state set_state
  simp [h1, h2, h3, h4]

/-- `step` is exactly: update `state` along the current direction, then
`apply_state`. -/
theorem step_eq (m : ULN2003) :
    step m = apply_state { m with state := dirTransition m.dir m.state } := by
  cases hd : m.dir <;> simp [step, dirTransition, hd]

/-- `step` always advances `state` along the current direction (before
any write happens) and leaves `dir`, `delay` and the failure schedules
alone, whatever the outcome of the writes. -/
theorem step_frame (m : ULN2003) :
    (step m).1.state = dirTransition m.dir m.state ∧ (step m).1.dir = m.dir ∧
      (step m).1.delay = m.delay ∧
      (step m).1.in1.failAt = m.in1.failAt ∧
      (step m).1.in2.failAt = m.in2.failAt ∧
      (step m).1.in3.failAt = m.in3.failAt ∧
      (step m).1.in4.failAt = m.in4.failAt := by
  rw [step_eq]
  simpa using apply_state_frame { m with state := dirTransition m.dir m.state }

/-- A fully successful `step`: returns `ok` and appends the pattern row
of the new state to the four pin logs. -/
theorem step_ok_parts (m : ULN2003) (h : pinsOk m) :
    (step m).2 = .ok () ∧
      (step m).1.in1.attempts
        = m.in1.attempts ++ [(get_pin_states (dirTransition m.dir m.state)).1] ∧
      (step m).1.in2.attempts
        = m.in2.attempts ++ [(get_pin_states (dirTransition m.dir m.state)).2.1] ∧
      (step m).1.in3.attempts
        = m.in3.attempts ++ [(get_pin_states (dirTransition m.dir m.state)).2.2.1] ∧
      (step m).1.in4.attempts
        = m.in4.attempts ++ [(get_pin_states (dirTransition m.dir m.state)).2.2.2] := by
  obtain ⟨h1, h2, h3, h4⟩ := h
  have hA := apply_state_ok { m with state := dirTransition m.dir m.state }
    (h1 _) (h2 _) (h3 _) (h4 _)
  rw [step_eq, hA]
  simp

/-- `delay_ms` only touches the delay log. -/
theorem delay_ms_frame (m : ULN2003) (ms : Nat) :
    (delay_ms m ms).in1 = m.in1 ∧ (delay_ms m ms).in2 = m.in2 ∧
      (delay_ms m ms).in3 = m.in3 ∧ (delay_ms m ms).in4 = m.in4 ∧
      (delay_ms m ms).state = m.state ∧ (delay_ms m ms).dir = m.dir ∧
      (delay_ms m ms).delay = m.delay.map (fun l => l ++ [ms]) := by
  simp [delay_ms]

/-- `step` keeps never-failing pins never-failing. -/
theorem pinsOk_step (m : ULN2003) (h : pinsOk m) : pinsOk (step m).1 := by
  obtain ⟨-, -, -, f1, f2, f3, f4⟩ := step_frame m
  exact ⟨fun n => by rw [f1]; exact h.1 n, fun n => by rw [f2]; exact h.2.1 n,
    fun n => by rw [f3]; exact h.2.2.1 n, fun n => by rw [f4]; exact h.2.2.2 n⟩

/-- `delay_ms` keeps never-failing pins never-failing. -/
theorem pinsOk_delay_ms (m : ULN2003) (ms : Nat) (h : pinsOk m) :
    pinsOk (delay_ms m ms) := h

/-- The motor after a fully successful `power_off`: every pin log gains
one `Low` write, nothing else changes. -/
def power_off_result (m : ULN2003) : ULN2003 :=
  { m with
      in1 := ⟨m.in1.failAt, m.in1.attempts ++ [PinState.Low]⟩
      in2 := ⟨m.in2.failAt, m.in2.attempts ++ [PinState.Low]⟩
      in3 := ⟨m.in3.failAt, m.in3.attempts ++ [PinState.Low]⟩
      in4 := ⟨m.in4.failAt, m.in4.attempts ++ [PinState.Low]⟩ }

/-- When all four writes succeed, `power_off` appends `Low` to the four
pin logs and changes nothing else. -/
theorem power_off_ok (m : ULN2003)
    (h1 : m.in1.failAt m.in1.attempts.length = false)
    (h2 : m.in2.failAt m.in2.attempts.length = false)
    (h3 : m.in3.failAt m.in3.attempts.length = false)
    (h4 : m.in4.failAt m.in4.attempts.length = false) :
    power_off m = (power_off_result m, .ok ()) := by
  unfold power_off power_off_result set_state
  simp [h1, h2, h3, h4]

/-- Unfolding the `step_for` loop when the step fails. -/
theorem step_for_loop_err (ms : Nat) (m : ULN2003) (n : Nat) (e : StepError)
    (h : (step m).2 = .error e) :
    step_for_loop ms m (n + 1) = ((step m).1, .error e) := by
  simp [step_for_loop, h]

/-- Unfolding the `step_for` loop when the step succeeds. -/
theorem step_for_loop_okStep (ms : Nat) (m : ULN2003) (n : Nat)
    (h : (step m).2 = .ok ()) :
    step_for_loop ms m (n + 1) = step_for_loop ms (delay_ms (step m).1 ms) n := by
  simp [step_for_loop, h]

/-- With never-failing pins, `n` iterations of the `step_for` loop
succeed, perform `n` steps (one pattern row appended to every pin log
per step), append exactly `n` sleeps of `ms` to the delay log, and leave
`dir` and the failure schedules alone. -/
theorem step_for_loop_allOk (ms : Nat) (n : Nat) :
    ∀ m : ULN2003, pinsOk m →
      (step_for_loop ms m n).2 = .ok () ∧
      (step_for_loop ms m n).1.state = (dirTransition m.dir)^[n] m.state ∧
      (step_for_loop ms m n).1.dir = m.dir ∧
      (step_for_loop ms m n).1.delay
        = m.delay.map (fun l => l ++ List.replicate n ms) ∧
      (step_for_loop ms m n).1.in1.attempts.length = m.in1.attempts.length + n ∧
      (step_for_loop ms m n).1.in2.attempts.length = m.in2.attempts.length + n ∧
      (step_for_loop ms m n).1.in3.attempts.length = m.in3.attempts.length + n ∧
      (step_for_loop ms m n).1.in4.attempts.length = m.in4.attempts.length + n := by
  induction n with
  | zero =>
    intro m h
    cases hd : m.delay <;> simp [step_for_loop, hd]
  | succ n ih =>
    intro m h
    obtain ⟨hok, ha1, ha2, ha3, ha4⟩ := step_ok_parts m h
    obtain ⟨hs, hdir, hdel, -, -, -, -⟩ := step_frame m
    rw [step_for_loop_okStep ms m n hok]
    have hOk' : pinsOk (delay_ms (step m).1 ms) := pinsOk_delay_ms _ ms (pinsOk_step m h)
    obtain ⟨c0, c1, c2, c3, c4, c5, c6, c7⟩ := ih (delay_ms (step m).1 ms) hOk'
    obtain ⟨d1, d2, d3, d4, d5, d6, d7⟩ := delay_ms_frame (step m).1 ms
    refine ⟨c0, ?_, ?_, ?_, ?_, ?_, ?_, ?_⟩
    · rw [c1, d5, d6, hs, hdir, ← Function.iterate_succ_apply]
    · rw [c2, d6, hdir]
    · rw [c3, d7, hdel]
      cases hdl : m.delay <;>
        simp [List.replicate_succ, hdl]
    · rw [c4, d1, ha1]; simp; omega
    · rw [c5, d2, ha2]; simp; omega
    · rw [c6, d3, ha3]; simp; omega
    · rw [c7, d4, ha4]; simp; omega

/-- One successful iteration of the `step_for` loop body: step then
sleep. -/
def runStep (ms : Nat) (m : ULN2003) : ULN2003 :=
  delay_ms (step m).1 ms

/-- Each loop iteration appends exactly one sleep to the delay log. -/
theorem runStep_iter_delay (ms : Nat) (j : Nat) :
    ∀ (m : ULN2003) (l : List Nat), m.delay = some l →
      ((runStep ms)^[j] m).delay = some (l ++ List.replicate j ms) := by
  induction j with
  | zero => intro m l h; simpa using h
  | succ j ih =>
    intro m l h
    rw [Function.iterate_succ_apply]
    have hstep : ((step m).1).delay = some l := by rw [(step_frame m).2.2.1, h]
    have hrun : (runStep ms m).delay = some (l ++ [ms]) := by
      simp [runStep, delay_ms, hstep]
    rw [ih (runStep ms m) (l ++ [ms]) hrun]
    simp [List.replicate_succ]

/-- If the first `j` iterations of the `step_for` loop succeed and the
step of iteration `j` fails, the loop stops right there with the error
and the motor exactly as the failing step left it. -/
theorem step_for_loop_abort (ms : Nat) (j : Nat) :
    ∀ (n : Nat) (m : ULN2003), j < n →
      (∀ i, i < j → (step ((runStep ms)^[i] m)).2 = .ok ()) →
      (step ((runStep ms)^[j] m)).2 = .error .mk →
      step_for_loop ms m n = ((step ((runStep ms)^[j] m)).1, .error .mk) := by
  induction j with
  | zero =>
    intro n m hn hok herr
    obtain ⟨k, rfl⟩ : ∃ k, n = k + 1 := ⟨n - 1, by omega⟩
    simpa using step_for_loop_err ms m k .mk (by simpa using herr)
  | succ j ih =>
    intro n m hn hok herr
    obtain ⟨k, rfl⟩ : ∃ k, n = k + 1 := ⟨n - 1, by omega⟩
    have h0 : (step m).2 = .ok () := by simpa using hok 0 (Nat.succ_pos j)
    rw [step_for_loop_okStep ms m k h0]
    have hstep : ∀ i, i < j → (step ((runStep ms)^[i] (runStep ms m))).2 = .ok () := by
      intro i hi
      rw [← Function.iterate_succ_apply]
      exact hok (i + 1) (by omega)
    have herr' : (step ((runStep ms)^[j] (runStep ms m))).2 = .error .mk := by
      rw [← Function.iterate_succ_apply]
      exact herr
    have := ih k (runStep ms m) (by omega) hstep herr'
    rw [show delay_ms (step m).1 ms = runStep ms m from rfl, this,
      ← Function.iterate_succ_apply]

/-- A pin whose writes always succeed, with an empty log. -/
def okPin : Pin :=
  ⟨fun _ => false, []⟩

/-- A pin whose writes always fail, with an empty log. -/
def failPin : Pin :=
  ⟨fun _ => true, []⟩

/-- A pin that fails exactly its third write attempt. -/
def failThirdPin : Pin :=
  ⟨fun n => n == 2, []⟩

/-- A freshly constructed motor whose pins never fail, with a delay
capability. -/
def mAllOk : ULN2003 :=
  ULN2003.new okPin okPin okPin okPin (some [])

/-- A freshly constructed motor whose wire-3 pin always fails. -/
def mWire3Fail : ULN2003 :=
  ULN2003.new okPin okPin failPin okPin none

/-- A freshly constructed motor without a delay capability. -/
def mNoDelay : ULN2003 :=
  ULN2003.new okPin okPin okPin okPin none

/-- A motor (with delay) whose wire-1 pin fails on its third write, so
the third `step` of a `step_for` run fails. -/
def mThirdStepFail : ULN2003 :=
  ULN2003.new failThirdPin okPin okPin okPin (some [])

/-- The all-ok motor, set to `Reverse`. -/
def mRevAllOk : ULN2003 :=
  set_direction mAllOk Direction.Reverse

/-- Claim C4: the three total lookup functions match the spec tables
exactly — `get_pin_states` equals the 9-row wire table of §3,
`get_next_state` maps S0↦S1, Sn↦S(n+1) for n in 1..7 and S8↦S1, and
`get_prev_state` maps S0↦S8, S1↦S8 and Sn↦S(n-1) for n in 2..8. -/
theorem claim_C4_lookup_tables :
    (get_pin_states State0 = (Low, Low, Low, Low) ∧
      get_pin_states State1 = (Low, Low, Low, High) ∧
      get_pin_states State2 = (Low, Low, High, High) ∧
      get_pin_states State3 = (Low, Low, High, Low) ∧
      get_pin_states State4 = (Low, High, High, Low) ∧
      get_pin_states State5 = (Low, High, Low, Low) ∧
      get_pin_states State6 = (High, High, Low, Low) ∧
      get_pin_states State7 = (High, Low, Low, Low) ∧
      get_pin_states State8 = (High, Low, Low, High)) ∧
    (get_next_state State0 = State1 ∧ get_next_state State1 = State2 ∧
      get_next_state State2 = State3 ∧ get_next_state State3 = State4 ∧
      get_next_state State4 = State5 ∧ get_next_state State5 = State6 ∧
      get_next_state State6 = State7 ∧ get_next_state State7 = State8 ∧
      get_next_state State8 = State1) ∧
    (get_prev_state State0 = State8 ∧ get_prev_state State1 = State8 ∧
      get_prev_state State2 = State1 ∧ get_prev_state State3 = State2 ∧
      get_prev_state State4 = State3 ∧ get_prev_state State5 = State4 ∧
      get_prev_state State6 = State5 ∧ get_prev_state State7 = State6 ∧
      get_prev_state State8 = State7) :=
  ⟨⟨rfl, rfl, rfl, rfl, rfl, rfl, rfl, rfl, rfl⟩,
    ⟨rfl, rfl, rfl, rfl, rfl, rfl, rfl, rfl, rfl⟩,
    rfl, rfl, rfl, rfl, rfl, rfl, rfl, rfl, rfl⟩

/-- Claim C9: `next ∘ prev` is the identity on each of State1..State8,
and the round trip fails exactly at the State0/State1 boundary, where
`prev State0 = prev State1 = State8` and hence the pattern of
`next (prev State0)` differs from the pattern of State0. -/
theorem claim_C9_roundtrip_boundary :
    (get_next_state (get_prev_state State1) = State1 ∧
      get_next_state (get_prev_state State2) = State2 ∧
      get_next_state (get_prev_state State3) = State3 ∧
      get_next_state (get_prev_state State4) = State4 ∧
      get_next_state (get_prev_state State5) = State5 ∧
      get_next_state (get_prev_state State6) = State6 ∧
      get_next_state (get_prev_state State7) = State7 ∧
      get_next_state (get_prev_state State8) = State8) ∧
    get_prev_state State0 = State8 ∧ get_prev_state State1 = State8 ∧
    get_next_state (get_prev_state State0) ≠ State0 ∧
    get_pin_states (get_next_state (get_prev_state State0)) ≠ get_pin_states State0 := by
  decide

/-- Claim C10: neither `get_next_state` nor `get_prev_state` ever
yields State0, so after any `step` the position lies in State1..State8;
`stop` is what re-enters State0. -/
theorem claim_C10_state0_only_by_stop :
    (∀ s : State, get_next_state s ≠ State0 ∧ get_prev_state s ≠ State0) ∧
    (∀ m : ULN2003, (step m).1.state ≠ State0) ∧
    (∀ m : ULN2003, (stop m).1.state = State0) := by
  have hnp : ∀ s : State, get_next_state s ≠ State0 ∧ get_prev_state s ≠ State0 := by
    intro s
    cases s <;> exact ⟨by decide, by decide⟩
  refine ⟨hnp, fun m => ?_, fun m => ?_⟩
  · rw [(step_frame m).1]
    cases h : m.dir
    · simpa [dirTransition] using (hnp m.state).1
    · simpa [dirTransition] using (hnp m.state).2
  · exact (apply_state_frame { m with state := State0 }).1

/-- Claim C5: for every starting position and direction, after `step`
returns — successfully or with a `StepError` from a line write — the
position equals the transition of the old position under the current
direction (`next` if Normal, `prev` if Reverse); the logical state
update is never rolled back on write failure. -/
theorem claim_C5_position_always_advances (m : ULN2003) :
    (step m).1.state = dirTransition m.dir m.state :=
  (step_frame m).1

/-- Claim C2 counterexample: on the all-ok motor set to `Reverse`, a
successful `stop` leaves State0, but the very next `step` moves to
State8 — not State1 as the claim states. -/
theorem claim_C2_counterexample :
    (stop mRevAllOk).2 = .ok () ∧
    (stop mRevAllOk).1.state = State0 ∧
    (step (stop mRevAllOk).1).1.state = State8 ∧
    State8 ≠ State1 :=
  ⟨rfl, rfl, rfl, by decide⟩

/-- Claim C2 (amended): immediately after `stop` (which leaves the
position at State0), the next `step` moves to State1 when the direction
is Normal, and to State8 (`get_prev_state State0`) when it is
Reverse. -/
theorem claim_C2_step_after_stop (m : ULN2003) :
    (stop m).1.state = State0 ∧
    (step (stop m).1).1.state
      = (match m.dir with
          | Direction.Normal => State1
          | Direction.Reverse => State8) := by
  have h0 : (stop m).1.state = State0 :=
    (apply_state_frame { m with state := State0 }).1
  have hd : (stop m).1.dir = m.dir :=
    (apply_state_frame { m with state := State0 }).2.1
  refine ⟨h0, ?_⟩
  rw [(step_frame (stop m).1).1, h0, hd]
  cases m.dir <;> rfl

/-- Claim C6: without a delay capability, `step_for` returns `StepError`
immediately and returns the motor completely unchanged — so no step
happened, no line was written, and position and direction are intact. -/
theorem claim_C6_step_for_without_delay (m : ULN2003) (steps : Int) (ms : Nat)
    (h : m.delay = none) :
    step_for m steps ms = (m, .error .mk) := by
  simp [step_for, h]

/-- Claim C6 witness: the delay-less motor at 5 steps of 10 ms. -/
theorem claim_C6_step_for_without_delay_witness :
    mNoDelay.delay = none ∧ step_for mNoDelay 5 10 = (mNoDelay, .error .mk) :=
  ⟨rfl, claim_C6_step_for_without_delay mNoDelay 5 10 rfl⟩

/-- Claim C1 counterexample: on a motor whose wire-3 pin always fails,
`step` returns `StepError` but wire 4 receives no write attempt at all
(its log stays empty), refuting the claim that all four lines are still
attempted best-effort. -/
theorem claim_C1_counterexample :
    (step mWire3Fail).2 = .error .mk ∧
    (step mWire3Fail).1.in1.attempts = [Low] ∧
    (step mWire3Fail).1.in2.attempts = [Low] ∧
    (step mWire3Fail).1.in3.attempts = [Low] ∧
    (step mWire3Fail).1.in4.attempts = [] :=
  ⟨rfl, rfl, rfl, rfl, rfl⟩

/-- Claim C1 (amended): when the write to wire 3 fails and wires 1 and 2
succeed, `step` returns `StepError`; wires 1, 2 and 3 each receive
exactly one write attempt (in wire order, carrying the new pattern row),
and wire 4 receives none — the `?` short-circuit skips the remaining
writes rather than attempting them best-effort. -/
theorem claim_C1_write_failure_short_circuits (m : ULN2003)
    (h1 : m.in1.failAt m.in1.attempts.length = false)
    (h2 : m.in2.failAt m.in2.attempts.length = false)
    (h3 : m.in3.failAt m.in3.attempts.length = true) :
    (step m).2 = .error .mk ∧
    (step m).1.in1.attempts
      = m.in1.attempts ++ [(get_pin_states (dirTransition m.dir m.state)).1] ∧
    (step m).1.in2.attempts
      = m.in2.attempts ++ [(get_pin_states (dirTransition m.dir m.state)).2.1] ∧
    (step m).1.in3.attempts
      = m.in3.attempts ++ [(get_pin_states (dirTransition m.dir m.state)).2.2.1] ∧
    (step m).1.in4.attempts = m.in4.attempts := by
  rw [step_eq]
  unfold apply_state set_state
  simp [h1, h2, h3]

/-- Claim C1 witness: the wire-3-failing motor. -/
theorem claim_C1_write_failure_short_circuits_witness :
    (step mWire3Fail).2 = .error .mk ∧
    (step mWire3Fail).1.in1.attempts
      = mWire3Fail.in1.attempts
        ++ [(get_pin_states (dirTransition mWire3Fail.dir mWire3Fail.state)).1] ∧
    (step mWire3Fail).1.in2.attempts
      = mWire3Fail.in2.attempts
        ++ [(get_pin_states (dirTransition mWire3Fail.dir mWire3Fail.state)).2.1] ∧
    (step mWire3Fail).1.in3.attempts
      = mWire3Fail.in3.attempts
        ++ [(get_pin_states (dirTransition mWire3Fail.dir mWire3Fail.state)).2.2.1] ∧
    (step mWire3Fail).1.in4.attempts = mWire3Fail.in4.attempts :=
  claim_C1_write_failure_short_circuits mWire3Fail rfl rfl rfl

/-- Claim C3 counterexample: `step_for(1, 7)` on the all-ok motor
performs one sleep — after the final (only) step — where the claim
predicts `steps - 1 = 0` sleeps. -/
theorem claim_C3_counterexample :
    (step_for mAllOk 1 7).2 = .ok () ∧
    (step_for mAllOk 1 7).1.delay = some [7] ∧
    some [7] ≠ (some [] : Option (List Nat)) :=
  ⟨rfl, rfl, by decide⟩

/-- Claim C3 (amended): with the delay capability present and pins that
never fail, `step_for(steps, ms)` succeeds, performs exactly
`steps.toNat` step calls (each pin log grows by one entry per step, the
position is the `steps.toNat`-fold transition of the start), and sleeps
exactly `steps.toNat` times — once after every step, including the final
one, not between steps only; `steps = 0` gives zero steps, zero writes,
zero sleeps and success. -/
theorem claim_C3_step_for_counts (m : ULN2003) (steps : Int) (ms : Nat) (l : List Nat)
    (hp : pinsOk m) (hd : m.delay = some l) :
    (step_for m steps ms).2 = .ok () ∧
    (step_for m steps ms).1.state = (dirTransition m.dir)^[steps.toNat] m.state ∧
    (step_for m steps ms).1.delay = some (l ++ List.replicate steps.toNat ms) ∧
    (step_for m steps ms).1.in1.attempts.length
      = m.in1.attempts.length + steps.toNat ∧
    (step_for m steps ms).1.in2.attempts.length
      = m.in2.attempts.length + steps.toNat ∧
    (step_for m steps ms).1.in3.attempts.length
      = m.in3.attempts.length + steps.toNat ∧
    (step_for m steps ms).1.in4.attempts.length
      = m.in4.attempts.length + steps.toNat := by
  have he : step_for m steps ms = step_for_loop ms m steps.toNat := by
    simp [step_for, hd]
  obtain ⟨c0, c1, c2, c3, c4, c5, c6, c7⟩ := step_for_loop_allOk ms steps.toNat m hp
  rw [he]
  exact ⟨c0, c1, by rw [c3, hd]; rfl, c4, c5, c6, c7⟩

/-- Claim C3 witness: the all-ok motor, 3 steps of 7 ms. -/
theorem claim_C3_step_for_counts_witness :
    pinsOk mAllOk ∧ mAllOk.delay = some [] ∧
    ((step_for mAllOk 3 7).2 = .ok () ∧
      (step_for mAllOk 3 7).1.state
        = (dirTransition mAllOk.dir)^[(3 : Int).toNat] mAllOk.state ∧
      (step_for mAllOk 3 7).1.delay
        = some ([] ++ List.replicate (3 : Int).toNat 7) ∧
      (step_for mAllOk 3 7).1.in1.attempts.length
        = mAllOk.in1.attempts.length + (3 : Int).toNat ∧
      (step_for mAllOk 3 7).1.in2.attempts.length
        = mAllOk.in2.attempts.length + (3 : Int).toNat ∧
      (step_for mAllOk 3 7).1.in3.attempts.length
        = mAllOk.in3.attempts.length + (3 : Int).toNat ∧
      (step_for mAllOk 3 7).1.in4.attempts.length
        = mAllOk.in4.attempts.length + (3 : Int).toNat) :=
  have hp : pinsOk mAllOk :=
    ⟨fun _ => rfl, fun _ => rfl, fun _ => rfl, fun _ => rfl⟩
  ⟨hp, rfl, claim_C3_step_for_counts mAllOk 3 7 [] hp rfl⟩

/-- Claim C7: if the first `j` loop iterations of `step_for` succeed and
the step of iteration `j` (the `j+1`-th step call) fails, with more
steps still requested, then `step_for` returns that `StepError` at once
with the motor exactly as the failing step left it — no further step or
sleep happens and the completed steps are not rolled back — and the
delay log shows exactly the `j` sleeps already performed. -/
theorem claim_C7_abort_on_first_failure (m : ULN2003) (steps : Int) (ms : Nat)
    (j : Nat) (l : List Nat)
    (hd : m.delay = some l)
    (hj : j < steps.toNat)
    (hok : ∀ i, i < j → (step ((runStep ms)^[i] m)).2 = .ok ())
    (herr : (step ((runStep ms)^[j] m)).2 = .error .mk) :
    step_for m steps ms = ((step ((runStep ms)^[j] m)).1, .error .mk) ∧
    (step_for m steps ms).1.delay = some (l ++ List.replicate j ms) := by
  have he : step_for m steps ms = step_for_loop ms m steps.toNat := by
    simp [step_for, hd]
  have habort := step_for_loop_abort ms j steps.toNat m hj hok herr
  refine ⟨by rw [he]; exact habort, ?_⟩
  rw [he, habort]
  show (step ((runStep ms)^[j] m)).1.delay = _
  rw [(step_frame _).2.2.1, runStep_iter_delay ms j m l hd]

/-- Claim C7 witness: the motor whose wire-1 pin fails on its third
write, run for 5 requested steps of 7 ms: the third step fails, two
sleeps happened. -/
theorem claim_C7_abort_on_first_failure_witness :
    step_for mThirdStepFail 5 7
      = ((step ((runStep 7)^[2] mThirdStepFail)).1, .error .mk) ∧
    (step_for mThirdStepFail 5 7).1.delay = some ([] ++ List.replicate 2 7) :=
  claim_C7_abort_on_first_failure mThirdStepFail 5 7 2 [] rfl (by decide)
    (by intro i hi; interval_cases i <;> rfl) rfl

/-- Claim C8: with pins that never fail, `power_off` writes `Low` to all
four lines, succeeds, and leaves position and direction exactly
unchanged; a subsequent `step` then moves to the transition of the
pre-`power_off` position under the current direction and emits that
position's pattern row on all four wires. -/
theorem claim_C8_power_off_preserves_sequencing (m : ULN2003) (hp : pinsOk m) :
    (power_off m).2 = .ok () ∧
    (power_off m).1.state = m.state ∧
    (power_off m).1.dir = m.dir ∧
    (power_off m).1.in1.attempts = m.in1.attempts ++ [Low] ∧
    (power_off m).1.in2.attempts = m.in2.attempts ++ [Low] ∧
    (power_off m).1.in3.attempts = m.in3.attempts ++ [Low] ∧
    (power_off m).1.in4.attempts = m.in4.attempts ++ [Low] ∧
    (step (power_off m).1).2 = .ok () ∧
    (step (power_off m).1).1.state = dirTransition m.dir m.state ∧
    (step (power_off m).1).1.in1.attempts
      = m.in1.attempts ++ [Low] ++ [(get_pin_states (dirTransition m.dir m.state)).1] ∧
    (step (power_off m).1).1.in2.attempts
      = m.in2.attempts ++ [Low] ++ [(get_pin_states (dirTransition m.dir m.state)).2.1] ∧
    (step (power_off m).1).1.in3.attempts
      = m.in3.attempts ++ [Low] ++ [(get_pin_states (dirTransition m.dir m.state)).2.2.1] ∧
    (step (power_off m).1).1.in4.attempts
      = m.in4.attempts ++ [Low] ++ [(get_pin_states (dirTransition m.dir m.state)).2.2.2] := by
  obtain ⟨h1, h2, h3, h4⟩ := hp
  have hP := power_off_ok m (h1 _) (h2 _) (h3 _) (h4 _)
  have hOkM : pinsOk (power_off_result m) := ⟨h1, h2, h3, h4⟩
  obtain ⟨s0, s1, s2, s3, s4⟩ := step_ok_parts (power_off_result m) hOkM
  rw [hP]
  exact ⟨rfl, rfl, rfl, rfl, rfl, rfl, rfl, s0,
    (step_frame (power_off_result m)).1, s1, s2, s3, s4⟩

/-- Claim C8 witness: the all-ok motor. -/
theorem claim_C8_power_off_preserves_sequencing_witness :
    pinsOk mAllOk ∧
    ((power_off mAllOk).2 = .ok () ∧
      (power_off mAllOk).1.state = mAllOk.state ∧
      (power_off mAllOk).1.dir = mAllOk.dir ∧
      (power_off mAllOk).1.in1.attempts = mAllOk.in1.attempts ++ [Low] ∧
      (power_off mAllOk).1.in2.attempts = mAllOk.in2.attempts ++ [Low] ∧
      (power_off mAllOk).1.in3.attempts = mAllOk.in3.attempts ++ [Low] ∧
      (power_off mAllOk).1.in4.attempts = mAllOk.in4.attempts ++ [Low] ∧
      (step (power_off mAllOk).1).2 = .ok () ∧
      (step (power_off mAllOk).1).1.state = dirTransition mAllOk.dir mAllOk.state ∧
      (step (power_off mAllOk).1).1.in1.attempts
        = mAllOk.in1.attempts ++ [Low]
          ++ [(get_pin_states (dirTransition mAllOk.dir mAllOk.state)).1] ∧
      (step (power_off mAllOk).1).1.in2.attempts
        = mAllOk.in2.attempts ++ [Low]
          ++ [(get_pin_states (dirTransition mAllOk.dir mAllOk.state)).2.1] ∧
      (step (power_off mAllOk).1).1.in3.attempts
        = mAllOk.in3.attempts ++ [Low]
          ++ [(get_pin_states (dirTransition mAllOk.dir mAllOk.state)).2.2.1] ∧
      (step (power_off mAllOk).1).1.in4.attempts
        = mAllOk.in4.attempts ++ [Low]
          ++ [(get_pin_states (dirTransition mAllOk.dir mAllOk.state)).2.2.2]) :=
  have hp : pinsOk mAllOk :=
    ⟨fun _ => rfl, fun _ => rfl, fun _ => rfl, fun _ => rfl⟩
  ⟨hp, claim_C8_power_off_preserves_sequencing mAllOk hp⟩

end ULN2003Driver
